import Mathlib

/-!
Shallow embedding of the ISO-TP / BLE / CAN bridge firmware
(rp2350-isotp-ble-bridge) and proofs about the claims of its
specification.

Bytes are modelled as `Nat` (CAN delivers `u8` values, so the interesting
inputs are below 256); CAN frame payloads are `List Nat`.  The heapless
vectors of the firmware have a fixed capacity and their fallible
`extend_from_slice` / `resize` calls are modelled by `Option`-returning
helpers; a `.unwrap()` or an out-of-bounds slice index in the Rust code is
an abort, modelled as the `none` result.  Arithmetic on `u8`/`u16` values
is modelled with explicit `% 256` / `% 65536` where the Rust code can wrap
(release-profile wrapping semantics).
-/

/-- Maximum data length of an ISO-TP Single Frame (`SF_DL_MAX` in
`isotp_handler.rs`). -/
def SF_DL_MAX : Nat := 7

/-- Maximum data length announced by a First Frame (`FF_DL_MAX`). -/
def FF_DL_MAX : Nat := 4095

/-- Maximum data length of a Consecutive Frame (`CF_DL_MAX`). -/
def CF_DL_MAX : Nat := 7

/-- Frame type nibble of a Single Frame. -/
def SINGLE_FRAME : Nat := 0x00

/-- Frame type nibble of a First Frame. -/
def FIRST_FRAME : Nat := 0x10

/-- Frame type nibble of a Consecutive Frame. -/
def CONSECUTIVE_FRAME : Nat := 0x20

/-- Frame type nibble of a Flow Control frame. -/
def FLOW_CONTROL : Nat := 0x30

/-- Flow status ContinueToSend. -/
def CONTINUE_TO_SEND : Nat := 0x00

/-- Flow status Wait. -/
def WAIT : Nat := 0x01

/-- Flow status Overflow. -/
def OVERFLOW : Nat := 0x02

/-- Default STmin in milliseconds (`DEFAULT_ST_MIN`). -/
def DEFAULT_ST_MIN : Nat := 0x0A

/-- Default block size, 0 meaning send all frames (`DEFAULT_BLOCK_SIZE`). -/
def DEFAULT_BLOCK_SIZE : Nat := 0x00

/-- Pad byte used to fill transmitted CAN frames to 8 bytes. -/
def DEFAULT_TX_PAD_BYTE : Nat := 0x55

/-- Model of `heapless::Vec::extend_from_slice` on a vector of capacity
`cap`: the bytes are appended only when they fit, otherwise the call fails
(and an `.unwrap()` on the failure aborts, which callers map to `none`). -/
def vecExtend (cap : Nat) (v add : List Nat) : Option (List Nat) :=
  if v.length + add.length ≤ cap then some (v ++ add) else none

/-- Model of `heapless::Vec::resize(new_len, 0)`: fails when `new_len`
exceeds the capacity, truncates when shrinking, and zero-fills growth. -/
def vecResize (cap : Nat) (v : List Nat) (new_len : Nat) : Option (List Nat) :=
  if new_len ≤ cap then
    if new_len ≤ v.length then some (v.take new_len)
    else some (v ++ List.replicate (new_len - v.length) 0)
  else none

/-- State of one `IsotpHandler` (`isotp_handler.rs`).  The atomics of the
Rust struct are plain fields here; the state machine is exercised one
frame at a time, matching the bridge, which holds the handler behind a
mutex while a frame or a command is processed. -/
structure IsotpHandler where
  request_arbitration_id : Nat
  reply_arbitration_id : Nat
  rx_buffer : List Nat
  tx_buffer : List Nat
  tx_index : Nat
  st_min : Nat
  block_size : Nat
  expected_sequence_number : Nat
  remaining_block_size : Nat
  expected_length : Nat
deriving DecidableEq, Repr

/-- `IsotpHandler::new`. -/
def IsotpHandler.new (request_arbitration_id reply_arbitration_id : Nat) : IsotpHandler where
  request_arbitration_id := request_arbitration_id
  reply_arbitration_id := reply_arbitration_id
  rx_buffer := []
  tx_buffer := []
  tx_index := 0
  st_min := DEFAULT_ST_MIN
  block_size := DEFAULT_BLOCK_SIZE
  expected_sequence_number := 0
  remaining_block_size := 0
  expected_length := 0

/-- `IsotpHandler::pad_frame`: extend the frame with the pad byte until it
is 8 bytes long. -/
def pad_frame (frame : List Nat) : List Nat :=
  frame ++ List.replicate (8 - frame.length) DEFAULT_TX_PAD_BYTE

/-- Model of `can_manager::send_message`: the data is copied into an
8-byte CAN message; when it does not fit, nothing is sent and the call
reports failure. -/
def can_send (frame : List Nat) : Option (List Nat) :=
  if frame.length ≤ 8 then some frame else none

/-- Result of delivering one CAN frame to a handler: the updated handler
state, the CAN frames it sent in response, and the reassembled PDUs it
emitted through `ble_server::send_isotp_response`. -/
structure HandlerStep where
  handler : IsotpHandler
  sentFrames : List (List Nat)
  emitted : List (List Nat)
deriving DecidableEq, Repr

/-- Projection used in claim statements: rx buffer of the handler after a
step. -/
def handlerRx (s : HandlerStep) : List Nat :=
  s.handler.rx_buffer

/-- `IsotpHandler::handle_single_frame` (the `id` argument of the Rust
method is unused there and omitted).  Precondition of the caller: `data`
is nonempty. -/
def handle_single_frame (h : IsotpHandler) (data : List Nat) : Option HandlerStep :=
  let length := data.headI &&& 0x0F
  if length > data.length - 1 then some ⟨h, [], []⟩
  else
    match vecExtend 4096 [] ((data.drop 1).take length) with
    | none => none
    | some rx => some ⟨{ h with rx_buffer := rx }, [], [rx]⟩

/-- `IsotpHandler::handle_first_frame`: record the declared length and the
first six payload bytes, then answer with a Flow Control frame built from
the default block size and STmin. -/
def handle_first_frame (h : IsotpHandler) (data : List Nat) : Option HandlerStep :=
  if data.length < 2 then some ⟨h, [], []⟩
  else
    let length := ((data.headI &&& 0x0F) <<< 8) ||| (data.drop 1).headI
    if length > FF_DL_MAX then some ⟨h, [], []⟩
    else
      match vecExtend 4096 [] (data.drop 2) with
      | none => none
      | some rx =>
        let fc_frame := pad_frame [FLOW_CONTROL ||| CONTINUE_TO_SEND, DEFAULT_BLOCK_SIZE, DEFAULT_ST_MIN]
        let sent := match can_send fc_frame with
          | some fr => [fr]
          | none => []
        some ⟨{ h with rx_buffer := rx,
                       expected_length := length,
                       expected_sequence_number := 1 }, sent, []⟩

/-- `IsotpHandler::handle_consecutive_frame`: a mismatched sequence number
only logs and returns; a matching one appends the 7 payload bytes
(including any pad bytes of the frame), advances the expected sequence
number, and emits the reassembled PDU once enough bytes arrived. -/
def handle_consecutive_frame (h : IsotpHandler) (data : List Nat) : Option HandlerStep :=
  if data.length < 2 then some ⟨h, [], []⟩
  else
    let sequence_number := data.headI &&& 0x0F
    if sequence_number ≠ h.expected_sequence_number then some ⟨h, [], []⟩
    else
      match vecExtend 4096 h.rx_buffer (data.drop 1) with
      | none => none
      | some rx =>
        let next_sequence := if h.expected_sequence_number = 0x0F then 0
          else h.expected_sequence_number + 1
        if rx.length ≥ h.expected_length then
          some ⟨{ h with rx_buffer := rx.take h.expected_length,
                         expected_sequence_number := next_sequence }, [],
                [rx.take h.expected_length]⟩
        else
          some ⟨{ h with rx_buffer := rx,
                         expected_sequence_number := next_sequence }, [], []⟩

/-- `IsotpHandler::handle_flow_control`: ContinueToSend adopts the block
size and STmin from the frame; Wait, Overflow and unknown statuses only
log. -/
def handle_flow_control (h : IsotpHandler) (data : List Nat) : Option HandlerStep :=
  if data.length < 3 then some ⟨h, [], []⟩
  else
    let flow_status := data.headI &&& 0x0F
    if flow_status = CONTINUE_TO_SEND then
      some ⟨{ h with block_size := (data.drop 1).headI,
                     st_min := (data.drop 2).headI }, [], []⟩
    else some ⟨h, [], []⟩

/-- `IsotpHandler::handle_received_can_frame`: dispatch on the upper
nibble of the first byte; empty frames and unknown frame types are
dropped. -/
def handle_received_can_frame (h : IsotpHandler) (data : List Nat) : Option HandlerStep :=
  if data.isEmpty then some ⟨h, [], []⟩
  else
    match data.headI >>> 4 with
    | 0 => handle_single_frame h data
    | 1 => handle_first_frame h data
    | 2 => handle_consecutive_frame h data
    | 3 => handle_flow_control h data
    | _ => some ⟨h, [], []⟩

/-- Deliver a list of CAN frames to a handler in order, accumulating the
frames it sends and the PDUs it emits; `none` as soon as one delivery
aborts. -/
def feedFrames (h : IsotpHandler) (frames : List (List Nat)) : Option HandlerStep :=
  match frames with
  | [] => some ⟨h, [], []⟩
  | f :: rest =>
    match handle_received_can_frame h f with
    | none => none
    | some s1 =>
      match feedFrames s1.handler rest with
      | none => none
      | some s2 => some ⟨s2.handler, s1.sentFrames ++ s2.sentFrames, s1.emitted ++ s2.emitted⟩

/-- `IsotpHandler::send_single_frame`: one frame `[0x00 | len, data...]`
padded to 8 bytes (the handler state is unchanged; the `id` argument only
addresses the CAN message and does not influence the payload). -/
def send_single_frame (data : List Nat) : Option (List (List Nat) × Bool) :=
  match vecExtend 8 [SINGLE_FRAME ||| data.length % 256] data with
  | none => none
  | some f =>
    match can_send (pad_frame f) with
    | some fr => some ([fr], true)
    | none => some ([], false)

/-- Body of the `while data_index < data.len()` loop of
`IsotpHandler::send_multi_frame`.  Each iteration builds one Consecutive
Frame from the next chunk of up to `CF_DL_MAX` bytes, wraps the sequence
number from 15 to 0, and — when a block size is configured — loads the
remaining block counter, decrements it with `u8` wrap-around, and stores
the block size back only when the decremented value reached zero.  The
loop contains no reception of Flow Control frames and no pause: the only
waiting between frames is the `Timer::after(st_min)` sleep (timing is not
modelled).  The accumulated result is the updated handler state, the
frames actually handed to the CAN layer, and the value returned by
`send_multi_frame` from this point on. -/
def send_cf_loop (st : IsotpHandler) (data : List Nat) (data_index sequence_number : Nat) :
    IsotpHandler × List (List Nat) × Bool :=
  if data_index < data.length then
    let remaining := data.length - data_index
    let chunk_size := min remaining CF_DL_MAX
    let frame := pad_frame ((CONSECUTIVE_FRAME ||| (sequence_number &&& 0x0F)) ::
      ((data.drop data_index).take chunk_size))
    match can_send frame with
    | none => (st, [], false)
    | some fr =>
      let sn2 := if sequence_number = 0x0F then 0 else sequence_number + 1
      let st2 :=
        if 0 < st.block_size then
          let r := (st.remaining_block_size + 255) % 256
          if r = 0 then { st with remaining_block_size := st.block_size } else st
        else st
      let rest := send_cf_loop st2 data (data_index + chunk_size) sn2
      (rest.1, fr :: rest.2.1, rest.2.2)
  else (st, [], true)
termination_by data.length - data_index
decreasing_by
  have h1 : 1 ≤ min (data.length - data_index) CF_DL_MAX := by
    simp [CF_DL_MAX]; omega
  omega

/-- `IsotpHandler::send_multi_frame`: emit the First Frame (whose build
slices `data[0..6]`, an abort when the data is shorter), store the
remaining bytes in the tx buffer, then run the Consecutive Frame loop
starting at index 6 with sequence number 1. -/
def send_multi_frame (st : IsotpHandler) (data : List Nat) :
    Option (IsotpHandler × List (List Nat) × Bool) :=
  if data.length < 6 then none
  else
    match vecExtend 8 [FIRST_FRAME ||| (data.length >>> 8) % 256, data.length % 256]
        (data.take 6) with
    | none => none
    | some ff =>
      match can_send ff with
      | none => some (st, [], false)
      | some ffr =>
        match vecExtend 4096 [] (data.drop 6) with
        | none => none
        | some txb =>
          let st1 := { st with tx_buffer := txb, tx_index := 1 }
          let r := send_cf_loop st1 data 6 1
          some (r.1, ffr :: r.2.1, r.2.2)

/-- `IsotpHandler::send_message`: a PDU of up to `SF_DL_MAX` bytes goes
out as one Single Frame, anything longer as First Frame plus Consecutive
Frames. -/
def IsotpHandler.send_message (st : IsotpHandler) (data : List Nat) :
    Option (IsotpHandler × List (List Nat) × Bool) :=
  if data.length ≤ SF_DL_MAX then
    match send_single_frame data with
    | none => none
    | some (frames, ok) => some (st, frames, ok)
  else send_multi_frame st data

/-- Recognizer for Consecutive Frames among emitted CAN frames. -/
def is_consecutive_frame (frame : List Nat) : Bool :=
  frame.headI >>> 4 == 2

/-- Number of Consecutive Frames in a list of CAN frames. -/
def cfCount (frames : List (List Nat)) : Nat :=
  (frames.filter is_consecutive_frame).length

/-- `MAX_FILTERS` of `can_manager.rs`: size of the static filter id
table. -/
def MAX_FILTERS : Nat := 8

/-- The static filter table of `can_manager.rs`: the 8-slot `FILTER_IDS`
array and the `FILTER_COUNT` counter. -/
structure CanFilterState where
  filter_ids : List Nat
  filter_count : Nat
deriving DecidableEq, Repr

/-- Initial filter table: all ids zero, count zero. -/
def canFilterInit : CanFilterState :=
  ⟨List.replicate MAX_FILTERS 0, 0⟩

/-- `can_manager::register_isotp_filter`: refuse when
`FILTER_COUNT >= MAX_FILTERS - 1`, otherwise write the id into the next
slot and bump the count. -/
def register_isotp_filter (s : CanFilterState) (response_id : Nat) : CanFilterState × Bool :=
  if s.filter_count ≥ MAX_FILTERS - 1 then (s, false)
  else (⟨s.filter_ids.set s.filter_count response_id, s.filter_count + 1⟩, true)

/-- Run a sequence of registrations, collecting each returned flag. -/
def registerMany (s : CanFilterState) (ids : List Nat) : CanFilterState × List Bool :=
  match ids with
  | [] => (s, [])
  | id :: rest =>
    let r := register_isotp_filter s id
    let r2 := registerMany r.1 rest
    (r2.1, r.2 :: r2.2)

/-- `ManagerError` of `isotp_ble_bridge.rs`. -/
inductive ManagerError where
  | failedToInsertFilter
  | filterAlreadyExists
  | invalidOffset
  | invalidPayloadLength
  | filterNotFound
  | failedToSendMessage
deriving DecidableEq, Repr

/-- Parsed BLE commands as consumed by
`IsotpBleBridge::handle_ble_message`.  The `ParsedBleMessage` enum and its
command structs are declared in a module that is not among the sources;
the fields here are the ones the bridge reads from them (`offset`,
`chunk_length` and `chunk` of the upload command, `total_length` of the
send command, the three ids of the filter command), with the `u16`/`u32`
fields as `Nat`.  The periodic commands carry payloads the bridge never
touches, so they are modelled without fields. -/
inductive ParsedBleMessage where
  | uploadIsotpChunk (offset chunk_length : Nat) (chunk : List Nat)
  | sendIsotpBuffer (total_length : Nat)
  | startPeriodicIsotpMessage
  | stopPeriodicIsotpMessage
  | configureIsotpFilter (filter_id request_arbitration_id reply_arbitration_id : Nat)
deriving DecidableEq, Repr

/-- `MAX_HANDLERS` of `isotp_ble_bridge.rs`: capacity of the handler
map. -/
def MAX_HANDLERS : Nat := 4

/-- `MAX_TX_BUFFER_SIZE` of `isotp_ble_bridge.rs`. -/
def MAX_TX_BUFFER_SIZE : Nat := 4096

/-- `IsotpBleBridge` state: the `FnvIndexMap` of handlers keyed by filter
id (modelled as an association list in insertion order, which is the
iteration order of the index map) and the staging tx buffer. -/
structure IsotpBleBridge where
  isotp_handlers : List (Nat × IsotpHandler)
  isotp_tx_buffer : List Nat
deriving DecidableEq, Repr

/-- Big-endian `u32` from four bytes (`u32::from_be_bytes`). -/
def u32_from_be (b0 b1 b2 b3 : Nat) : Nat :=
  ((b0 % 256) <<< 24) ||| ((b1 % 256) <<< 16) ||| ((b2 % 256) <<< 8) ||| (b3 % 256)

/-- Wrapping `u16` subtraction (release-profile semantics of
`payload_length - 8`). -/
def u16_sub (a b : Nat) : Nat :=
  (a + 65536 - b % 65536) % 65536

/-- Copy `chunk` into `buf` starting at `start`
(`buf[start..start+chunk.len()].copy_from_slice(chunk)`), assuming the
range is in bounds. -/
def listCopyAt (buf : List Nat) (start : Nat) (chunk : List Nat) : List Nat :=
  buf.take start ++ chunk ++ buf.drop (start + chunk.length)

/-- Whether a handler matches both arbitration ids, as in the linear scan
of the send path. -/
def handlerMatches (req rep : Nat) (kv : Nat × IsotpHandler) : Bool :=
  kv.2.request_arbitration_id == req && kv.2.reply_arbitration_id == rep

/-- Replace the first association-list entry satisfying `p` by applying
`f` to it (the in-place mutation through `iter_mut().find`). -/
def updateFirst (p : Nat × IsotpHandler → Bool) (f : IsotpHandler → IsotpHandler) :
    List (Nat × IsotpHandler) → List (Nat × IsotpHandler)
  | [] => []
  | kv :: rest =>
    if p kv then (kv.1, f kv.2) :: rest
    else kv :: updateFirst p f rest

/-- `IsotpBleBridge::handle_ble_message`.  The result is `none` when the
Rust code aborts (a `todo!()` arm, an out-of-bounds index, a failed
`copy_from_slice`); otherwise the updated bridge, the updated CAN filter
table (`ConfigureIsotpFilter` registers the reply id with `can_manager`),
and `none`/`some e` for `Ok(())`/`Err(e)`. -/
def handle_ble_message (b : IsotpBleBridge) (cs : CanFilterState) (parsed : ParsedBleMessage) :
    Option (IsotpBleBridge × CanFilterState × Option ManagerError) :=
  match parsed with
  | .uploadIsotpChunk offset chunk_length chunk =>
    -- the bound check is done in u16 arithmetic: offset + chunk_length can wrap
    if (offset + chunk_length) % 65536 > MAX_TX_BUFFER_SIZE then
      some (b, cs, some .invalidOffset)
    else
      -- required_len is computed in usize arithmetic, which cannot wrap here
      let required_len := offset + chunk_length
      match vecResize MAX_TX_BUFFER_SIZE b.isotp_tx_buffer required_len with
      | none => some (b, cs, some .invalidOffset)
      | some buf =>
        -- copy_from_slice aborts unless the chunk has exactly the declared length
        if chunk.length = chunk_length then
          some ({ b with isotp_tx_buffer := listCopyAt buf offset chunk }, cs, none)
        else none
  | .sendIsotpBuffer total_length =>
    -- the two arbitration ids are read by direct indexing: fewer than
    -- 8 staged bytes is an out-of-bounds abort
    if 8 ≤ b.isotp_tx_buffer.length then
      let t := b.isotp_tx_buffer
      let request_arbitration_id := u32_from_be (t.headI) ((t.drop 1).headI) ((t.drop 2).headI) ((t.drop 3).headI)
      let reply_arbitration_id := u32_from_be ((t.drop 4).headI) ((t.drop 5).headI) ((t.drop 6).headI) ((t.drop 7).headI)
      let msg := t.drop 8
      if msg.length ≠ u16_sub total_length 8 then some (b, cs, some .invalidPayloadLength)
      else
        match b.isotp_handlers.find? (handlerMatches request_arbitration_id reply_arbitration_id) with
        | none => some (b, cs, some .filterNotFound)
        | some kv =>
          -- the bridge calls handler.send_isotp_message(request_id, msg); that
          -- method is not among the sources and is modelled by
          -- IsotpHandler::send_message, the send routine of isotp_handler.rs
          match kv.2.send_message msg with
          | none => none
          | some (h2, _frames, ok) =>
            let hs2 := updateFirst (handlerMatches request_arbitration_id reply_arbitration_id)
              (fun _ => h2) b.isotp_handlers
            let b2 := { b with isotp_handlers := hs2 }
            if ok then some ({ b2 with isotp_tx_buffer := [] }, cs, none)
            else some (b2, cs, some .failedToSendMessage)
    else none
  | .startPeriodicIsotpMessage => none
  | .stopPeriodicIsotpMessage => none
  | .configureIsotpFilter filter_id request_arbitration_id reply_arbitration_id =>
    if b.isotp_handlers.any (fun kv => kv.1 == filter_id) then
      some (b, cs, some .filterAlreadyExists)
    else
      let r := register_isotp_filter cs reply_arbitration_id
      if !r.2 then some (b, r.1, some .failedToInsertFilter)
      else
        if b.isotp_handlers.length ≥ MAX_HANDLERS then
          some (b, r.1, some .failedToInsertFilter)
        else
          let hs2 := b.isotp_handlers ++
            [(filter_id, IsotpHandler.new request_arbitration_id reply_arbitration_id)]
          some ({ b with isotp_handlers := hs2 },
            r.1, none)

/-- The First Frame built by `send_multi_frame` for a PDU: two header
bytes followed by the first six payload bytes. -/
def ffFrame (data : List Nat) : List Nat :=
  [FIRST_FRAME ||| (data.length >>> 8) % 256, data.length % 256] ++ data.take 6

/-- The Flow Control frame `handle_first_frame` answers with (default
block size and STmin, padded to 8 bytes). -/
def fcDefault : List Nat :=
  pad_frame [FLOW_CONTROL ||| CONTINUE_TO_SEND, DEFAULT_BLOCK_SIZE, DEFAULT_ST_MIN]

/-- The stream of Consecutive Frames the `send_multi_frame` loop builds
from the remaining payload `rest` starting at sequence number `sn`:
chunks of up to 7 bytes, each padded to 8, with the sequence number
wrapping from 15 to 0. -/
def cfFrames (rest : List Nat) (sn : Nat) : List (List Nat) :=
  if rest.isEmpty then []
  else pad_frame ((CONSECUTIVE_FRAME ||| (sn &&& 0x0F)) :: rest.take 7) ::
    cfFrames (rest.drop 7) (if sn = 0x0F then 0 else sn + 1)
termination_by rest.length
decreasing_by
  cases rest with
  | nil => simp [List.isEmpty_iff] at *
  | cons a t => simp; omega

lemma pad_frame_length (f : List Nat) (h : f.length ≤ 8) : (pad_frame f).length = 8 := by
  simp [pad_frame]
  omega

lemma can_send_of_le (f : List Nat) (h : f.length ≤ 8) : can_send f = some f := by
  simp [can_send, h]

lemma land15 (n : Nat) : n &&& 15 = n % 16 := by
  have := Nat.and_pow_two_sub_one_eq_mod n 4
  norm_num at this
  exact this

lemma shr4 (n : Nat) : n >>> 4 = n / 16 := by
  have := Nat.shiftRight_eq_div_pow n 4
  norm_num at this
  exact this

lemma shr8 (n : Nat) : n >>> 8 = n / 256 := by
  have := Nat.shiftRight_eq_div_pow n 8
  norm_num at this
  exact this

lemma shl8_lor (a b : Nat) (h : b < 256) : (a <<< 8) ||| b = 256 * a + b := by
  apply Nat.eq_of_testBit_eq
  intro j
  rw [Nat.testBit_lor, Nat.testBit_shiftLeft]
  have hb : b < 2 ^ 8 := by norm_num; omega
  have := Nat.testBit_mul_pow_two_add a hb j
  norm_num at this
  rw [this]
  by_cases hj : j < 8
  · simp [hj, Nat.not_le.mpr hj]
  · have hj8 : 8 ≤ j := Nat.not_lt.mp hj
    have hbj : b.testBit j = false := Nat.testBit_eq_false_of_lt (by
      calc b < 256 := h
      _ = 2 ^ 8 := by norm_num
      _ ≤ 2 ^ j := Nat.pow_le_pow_right (by norm_num) hj8)
    simp [hj, hj8, hbj]

lemma lor16 : ∀ hi < 16, (16 ||| hi) = 16 + hi := by decide

lemma lor32 : ∀ sn < 16, (32 ||| sn) = 32 + sn := by decide

/-- Decoding the two First Frame header bytes recovers the PDU length. -/
lemma ff_decode (L : Nat) (h : L < 4096) :
    (((FIRST_FRAME ||| (L >>> 8) % 256) &&& 0x0F) <<< 8) ||| (L % 256) = L := by
  have hhi : L >>> 8 = L / 256 := shr8 L
  have hlt : L / 256 < 16 := by omega
  have hmod : L / 256 % 256 = L / 256 := Nat.mod_eq_of_lt (by omega)
  rw [show FIRST_FRAME = 16 from rfl, hhi, hmod, lor16 _ hlt, land15]
  have h16 : (16 + L / 256) % 16 = L / 256 := by omega
  rw [h16, shl8_lor _ _ (Nat.mod_lt _ (by norm_num))]
  omega

lemma take_min_len (l : List Nat) (k : Nat) : l.take (min l.length k) = l.take k := by
  rcases Nat.le_total l.length k with h | h
  · rw [min_eq_left h, List.take_length, List.take_of_length_le h]
  · rw [min_eq_right h]

/-- The Consecutive Frame loop emits exactly the frame stream described by
`cfFrames` on the payload from `data_index` on, and reports success. -/
lemma send_cf_loop_frames : ∀ (m : Nat) (st : IsotpHandler) (data : List Nat) (idx sn : Nat),
    data.length - idx ≤ m →
    (send_cf_loop st data idx sn).2 = (cfFrames (data.drop idx) sn, true) := by
  intro m
  induction m with
  | zero =>
    intro st data idx sn hm
    have hge : ¬ idx < data.length := by omega
    have hnil : data.drop idx = [] := List.drop_eq_nil_of_le (by omega)
    rw [send_cf_loop, cfFrames]
    simp [hge, hnil]
  | succ m ih =>
    intro st data idx sn hm
    by_cases hlt : idx < data.length
    · have hchunklen : ((data.drop idx).take (min (data.length - idx) CF_DL_MAX)).length ≤ 7 := by
        simp only [List.length_take, List.length_drop, CF_DL_MAX]
        omega
      have hfr8 : (pad_frame ((CONSECUTIVE_FRAME ||| (sn &&& 0x0F)) ::
          (data.drop idx).take (min (data.length - idx) CF_DL_MAX))).length = 8 :=
        pad_frame_length _ (by simp only [List.length_cons]; omega)
      have hchunktake : (data.drop idx).take (min (data.length - idx) CF_DL_MAX) =
          (data.drop idx).take 7 := by
        have hdlen : (data.drop idx).length = data.length - idx := List.length_drop idx data
        rw [show CF_DL_MAX = 7 from rfl, ← hdlen, take_min_len]
      have hne : (data.drop idx).isEmpty = false := by
        apply List.isEmpty_eq_false.mpr
        intro hcon
        have := congrArg List.length hcon
        simp at this
        omega
      have h1 : ∀ st3 : IsotpHandler,
          (send_cf_loop st3 data (idx + min (data.length - idx) CF_DL_MAX)
            (if sn = 0x0F then 0 else sn + 1)).2.1 =
          cfFrames ((data.drop idx).drop 7) (if sn = 0x0F then 0 else sn + 1) := by
        intro st3
        have hm2 : data.length - (idx + min (data.length - idx) CF_DL_MAX) ≤ m := by
          simp only [CF_DL_MAX] at *
          omega
        rw [ih st3 data _ _ hm2]
        rcases Nat.le_total 7 (data.length - idx) with h7 | h7
        · have hmin : min (data.length - idx) CF_DL_MAX = 7 := by
            simp only [CF_DL_MAX]
            omega
          rw [hmin, List.drop_drop]
        · have hmin : min (data.length - idx) CF_DL_MAX = data.length - idx := by
            simp only [CF_DL_MAX]
            omega
          have e1 : data.drop (idx + min (data.length - idx) CF_DL_MAX) = [] := by
            rw [hmin]
            exact List.drop_eq_nil_of_le (by omega)
          have e2 : (data.drop idx).drop 7 = [] := by
            apply List.drop_eq_nil_of_le
            rw [List.length_drop]
            omega
          rw [e1, e2]
      have h2 : ∀ st3 : IsotpHandler,
          (send_cf_loop st3 data (idx + min (data.length - idx) CF_DL_MAX)
            (if sn = 0x0F then 0 else sn + 1)).2.2 = true := by
        intro st3
        have hm2 : data.length - (idx + min (data.length - idx) CF_DL_MAX) ≤ m := by
          simp only [CF_DL_MAX] at *
          omega
        rw [ih st3 data _ _ hm2]
      rw [send_cf_loop]
      simp only [hlt, if_true, can_send_of_le _ (le_of_eq hfr8)]
      rw [cfFrames]
      simp only [hne, Bool.false_eq_true, if_false, hchunktake, h1, h2]
    · have hnil : data.drop idx = [] := List.drop_eq_nil_of_le (by omega)
      rw [send_cf_loop, cfFrames]
      simp [hlt, hnil]

/-- Number of Consecutive Frames for a remaining payload: the ceiling of
`rest.length / 7`. -/
lemma cfFrames_length : ∀ (m : Nat) (rest : List Nat) (sn : Nat), rest.length ≤ m →
    (cfFrames rest sn).length = (rest.length + 6) / 7 := by
  intro m
  induction m with
  | zero =>
    intro rest sn hm
    have hnil : rest = [] := List.length_eq_zero.mp (by omega)
    rw [cfFrames]
    simp [hnil]
  | succ m ih =>
    intro rest sn hm
    by_cases hnil : rest = []
    · rw [cfFrames]
      simp [hnil]
    · have hne : rest.isEmpty = false := List.isEmpty_eq_false.mpr hnil
      have hlen1 : 1 ≤ rest.length := by
        cases rest with
        | nil => exact absurd rfl hnil
        | cons a t => simp
      rw [cfFrames]
      simp only [hne, Bool.false_eq_true, if_false, List.length_cons]
      rw [ih _ _ (by simp [List.length_drop]; omega)]
      simp only [List.length_drop]
      omega

/-- `send_multi_frame` on a PDU of 8 to 4102 bytes succeeds and emits the
First Frame followed by the `cfFrames` stream. -/
lemma send_multi_frame_spec (st : IsotpHandler) (data : List Nat)
    (h8 : 8 ≤ data.length) (hcap : data.length ≤ 4102) :
    ∃ stF, send_multi_frame st data = some (stF, ffFrame data :: cfFrames (data.drop 6) 1, true) := by
  have h6 : ¬ data.length < 6 := by omega
  have htake6 : (data.take 6).length = 6 := by
    rw [List.length_take]
    omega
  have hff : vecExtend 8 [FIRST_FRAME ||| (data.length >>> 8) % 256, data.length % 256]
      (data.take 6) = some (ffFrame data) := by
    simp only [vecExtend, List.length_cons, htake6]
    norm_num
    rfl
  have hfflen : (ffFrame data).length = 8 := by
    simp only [ffFrame, List.length_append, List.length_cons, List.length_nil, htake6]
  have htx : vecExtend 4096 [] (data.drop 6) = some (data.drop 6) := by
    simp only [vecExtend, List.length_nil, List.length_drop]
    rw [if_pos (by omega)]
    simp
  refine ⟨(send_cf_loop { st with tx_buffer := data.drop 6, tx_index := 1 } data 6 1).1, ?_⟩
  rw [send_multi_frame]
  simp only [h6, if_false, hff, can_send_of_le _ (le_of_eq hfflen), htx]
  have hloop := send_cf_loop_frames (data.length - 6)
    { st with tx_buffer := data.drop 6, tx_index := 1 } data 6 1 (by omega)
  have hl1 : (send_cf_loop { st with tx_buffer := data.drop 6, tx_index := 1 } data 6 1).2.1 =
      cfFrames (data.drop 6) 1 := by rw [hloop]
  have hl2 : (send_cf_loop { st with tx_buffer := data.drop 6, tx_index := 1 } data 6 1).2.2 =
      true := by rw [hloop]
  rw [hl1, hl2]

/-- Shape of a padded Consecutive Frame: header byte `0x20 + sn` followed
by the chunk and the pad bytes, 8 bytes in total. -/
lemma pad_cf_shape (sn : Nat) (chunk : List Nat) (hsn : sn ≤ 15) (hc7 : chunk.length ≤ 7) :
    pad_frame ((CONSECUTIVE_FRAME ||| (sn &&& 0x0F)) :: chunk) =
      (32 + sn) :: (chunk ++ List.replicate (7 - chunk.length) DEFAULT_TX_PAD_BYTE) := by
  have h1 : CONSECUTIVE_FRAME ||| (sn &&& 0x0F) = 32 + sn := by
    rw [show CONSECUTIVE_FRAME = 32 from rfl, land15, Nat.mod_eq_of_lt (by omega)]
    exact lor32 sn (by omega)
  have h2 : 8 - (chunk.length + 1) = 7 - chunk.length := by omega
  rw [pad_frame, h1]
  simp only [List.length_cons, List.cons_append, h2]

lemma dispatch_cf (h : IsotpHandler) (b0 : Nat) (rest : List Nat) (hb : b0 >>> 4 = 2) :
    handle_received_can_frame h (b0 :: rest) = handle_consecutive_frame h (b0 :: rest) := by
  rw [handle_received_can_frame]
  simp [hb]

lemma dispatch_ff (h : IsotpHandler) (b0 : Nat) (rest : List Nat) (hb : b0 >>> 4 = 1) :
    handle_received_can_frame h (b0 :: rest) = handle_first_frame h (b0 :: rest) := by
  rw [handle_received_can_frame]
  simp [hb]

lemma fcDefault_length : fcDefault.length = 8 := by
  rw [fcDefault]
  exact pad_frame_length _ (by simp)

/-- Delivering the First Frame built by the transmitter to a handler
stores the first six payload bytes and the declared length, expects
sequence number 1, and answers with the default Flow Control frame. -/
lemma handle_ff_spec (h : IsotpHandler) (data : List Nat)
    (h8 : 8 ≤ data.length) (hmax : data.length ≤ 4095) :
    handle_received_can_frame h (ffFrame data) =
      some ⟨{ h with
                rx_buffer := data.take 6,
                expected_length := data.length,
                expected_sequence_number := 1 }, [fcDefault], []⟩ := by
  have hhi : data.length >>> 8 = data.length / 256 := shr8 _
  have hb0 : FIRST_FRAME ||| (data.length >>> 8) % 256 = 16 + data.length / 256 := by
    rw [show FIRST_FRAME = 16 from rfl, hhi, Nat.mod_eq_of_lt (by omega)]
    exact lor16 _ (by omega)
  have hb0shift : (FIRST_FRAME ||| (data.length >>> 8) % 256) >>> 4 = 1 := by
    rw [hb0, shr4]
    omega
  have hcons : ffFrame data =
      (FIRST_FRAME ||| (data.length >>> 8) % 256) :: (data.length % 256 :: data.take 6) := rfl
  have htake6 : (data.take 6).length = 6 := by
    rw [List.length_take]
    omega
  rw [hcons, dispatch_ff _ _ _ hb0shift, handle_first_frame]
  have hlen2 : ¬ ((FIRST_FRAME ||| (data.length >>> 8) % 256) ::
      (data.length % 256 :: data.take 6)).length < 2 := by
    simp
  rw [if_neg hlen2]
  have hdec := ff_decode data.length (by omega)
  simp only [List.headI_cons, List.drop_succ_cons, List.drop_zero, hdec]
  have hnotbig : ¬ data.length > FF_DL_MAX := by
    rw [show FF_DL_MAX = 4095 from rfl]
    omega
  rw [if_neg hnotbig]
  have hext : vecExtend 4096 [] (data.take 6) = some (data.take 6) := by
    rw [vecExtend]
    rw [if_pos (by simp [htake6])]
    simp
  rw [hext]
  rw [show pad_frame [FLOW_CONTROL ||| CONTINUE_TO_SEND, DEFAULT_BLOCK_SIZE, DEFAULT_ST_MIN] =
    fcDefault from rfl]
  rw [can_send_of_le _ (le_of_eq fcDefault_length)]

/-- Delivering one padded Consecutive Frame whose sequence number matches
the expected one appends its 7 payload bytes (chunk plus pad), advances
the expected sequence number, and emits the truncated PDU exactly when
the declared length is reached. -/
lemma handle_cf_spec (h : IsotpHandler) (chunk : List Nat) (sn : Nat)
    (hsn : sn ≤ 15) (hexp : h.expected_sequence_number = sn) (hc7 : chunk.length ≤ 7)
    (hcap : h.rx_buffer.length + 7 ≤ 4096) :
    handle_received_can_frame h (pad_frame ((CONSECUTIVE_FRAME ||| (sn &&& 0x0F)) :: chunk)) =
      (if h.rx_buffer.length + 7 ≥ h.expected_length then
        some ⟨{ h with
                  rx_buffer := (h.rx_buffer ++
                    (chunk ++ List.replicate (7 - chunk.length) DEFAULT_TX_PAD_BYTE)).take
                    h.expected_length,
                  expected_sequence_number := if sn = 0x0F then 0 else sn + 1 }, [],
              [(h.rx_buffer ++
                  (chunk ++ List.replicate (7 - chunk.length) DEFAULT_TX_PAD_BYTE)).take
                  h.expected_length]⟩
      else
        some ⟨{ h with
                  rx_buffer := h.rx_buffer ++
                    (chunk ++ List.replicate (7 - chunk.length) DEFAULT_TX_PAD_BYTE),
                  expected_sequence_number := if sn = 0x0F then 0 else sn + 1 }, [], []⟩) := by
  have hpl : (chunk ++ List.replicate (7 - chunk.length) DEFAULT_TX_PAD_BYTE).length = 7 := by
    simp [List.length_replicate]
    omega
  rw [pad_cf_shape sn chunk hsn hc7]
  have hb : (32 + sn) >>> 4 = 2 := by
    rw [shr4]
    omega
  rw [dispatch_cf _ _ _ hb, handle_consecutive_frame]
  have hlen2 : ¬ ((32 + sn) ::
      (chunk ++ List.replicate (7 - chunk.length) DEFAULT_TX_PAD_BYTE)).length < 2 := by
    simp [hpl]
  rw [if_neg hlen2]
  have hsn15 : (32 + sn) &&& 15 = sn := by
    rw [land15]
    omega
  simp only [List.headI_cons, List.drop_succ_cons, List.drop_zero, hsn15, hexp]
  rw [if_neg (by simp)]
  have hext : vecExtend 4096 h.rx_buffer
      (chunk ++ List.replicate (7 - chunk.length) DEFAULT_TX_PAD_BYTE) =
      some (h.rx_buffer ++ (chunk ++ List.replicate (7 - chunk.length) DEFAULT_TX_PAD_BYTE)) := by
    rw [vecExtend, if_pos (by rw [hpl]; exact hcap)]
  rw [hext]
  simp only [List.length_append, hpl]

lemma take_app (l1 l2 : List Nat) (n : Nat) :
    (l1 ++ l2).take (l1.length + n) = l1 ++ l2.take n := by
  simp [List.take_append]

lemma feedFrames_cons_some (h : IsotpHandler) (f : List Nat) (rest : List (List Nat))
    (s1 s2 : HandlerStep)
    (h1 : handle_received_can_frame h f = some s1)
    (h2 : feedFrames s1.handler rest = some s2) :
    feedFrames h (f :: rest) =
      some ⟨s2.handler, s1.sentFrames ++ s2.sentFrames, s1.emitted ++ s2.emitted⟩ := by
  rw [feedFrames, h1]
  dsimp only
  rw [h2]

lemma feedFrames_cons_none (h : IsotpHandler) (f : List Nat) (rest : List (List Nat))
    (s1 : HandlerStep)
    (h1 : handle_received_can_frame h f = some s1)
    (h2 : feedFrames s1.handler rest = none) :
    feedFrames h (f :: rest) = none := by
  rw [feedFrames, h1]
  dsimp only
  rw [h2]

/-- Feeding the whole Consecutive Frame stream of a transmission into a
handler that expects it (matching sequence number, declared length equal
to the stored prefix plus the remaining payload) reassembles and emits
exactly the PDU, provided the rx buffer never outgrows its capacity; the
arithmetic bound states that the final append of 7 padded bytes still
fits into the 4096-byte buffer. -/
lemma feed_cf_stream : ∀ (m : Nat) (rest : List Nat) (sn : Nat) (h : IsotpHandler),
    rest.length ≤ m → rest ≠ [] → sn ≤ 15 →
    h.expected_sequence_number = sn →
    h.expected_length = h.rx_buffer.length + rest.length →
    h.expected_length ≤ 4095 →
    h.expected_length ≤ 4090 + (rest.length - 1) % 7 →
    ∃ fsn, feedFrames h (cfFrames rest sn) =
      some ⟨{ h with
                rx_buffer := h.rx_buffer ++ rest,
                expected_sequence_number := fsn }, [], [h.rx_buffer ++ rest]⟩ := by
  intro m
  induction m with
  | zero =>
    intro rest sn h hm hne
    exact absurd (List.length_eq_zero.mp (by omega)) hne
  | succ m ih =>
    intro rest sn h hm hne hsn hexp hlen hmax hcapx
    have hrne : rest.isEmpty = false := List.isEmpty_eq_false.mpr hne
    have hr1 : 0 < rest.length := List.length_pos.mpr hne
    have htk7 : (rest.take 7).length = min 7 rest.length := List.length_take 7 rest
    rw [cfFrames]
    simp only [hrne, Bool.false_eq_true, if_false]
    rw [feedFrames]
    rw [handle_cf_spec h (rest.take 7) sn hsn hexp (by omega) (by omega)]
    rcases Nat.lt_or_ge rest.length 8 with hshort | hlong
    · -- last Consecutive Frame: the PDU completes here
      have hcond : h.rx_buffer.length + 7 ≥ h.expected_length := by omega
      rw [if_pos hcond]
      have hdrop : rest.drop 7 = [] := List.drop_eq_nil_of_le (by omega)
      have hcfnil : cfFrames (rest.drop 7) (if sn = 0x0F then 0 else sn + 1) = [] := by
        rw [hdrop, cfFrames]
        simp
      rw [hcfnil]
      dsimp only
      rw [feedFrames]
      have htkall : rest.take 7 = rest := List.take_of_length_le (by omega)
      have htrunc : (h.rx_buffer ++
          (rest.take 7 ++ List.replicate (7 - (rest.take 7).length) DEFAULT_TX_PAD_BYTE)).take
          h.expected_length = h.rx_buffer ++ rest := by
        rw [htkall, hlen, take_app]
        congr 1
        exact List.take_left rest (List.replicate (7 - rest.length) DEFAULT_TX_PAD_BYTE)
      refine ⟨if sn = 0x0F then 0 else sn + 1, ?_⟩
      rw [htrunc]
      simp
    · -- an intermediate Consecutive Frame: append and recurse
      have hcond : ¬ h.rx_buffer.length + 7 ≥ h.expected_length := by omega
      rw [if_neg hcond]
      have h7 : (rest.take 7).length = 7 := by omega
      have hpad0 : (7 : Nat) - (rest.take 7).length = 0 := by omega
      rw [hpad0]
      simp only [List.replicate_zero, List.append_nil]
      have hdne : rest.drop 7 ≠ [] := by
        intro hc
        have := congrArg List.length hc
        simp at this
        omega
      have hsn2 : (if sn = 0x0F then 0 else sn + 1) ≤ 15 := by
        split
        next => omega
        next hs => omega
      obtain ⟨fsn, hfeed⟩ := ih (rest.drop 7) (if sn = 0x0F then 0 else sn + 1)
        { h with
            rx_buffer := h.rx_buffer ++ rest.take 7,
            expected_sequence_number := if sn = 0x0F then 0 else sn + 1 }
        (by simp [List.length_drop]; omega) hdne hsn2 rfl
        (by simp [List.length_append, List.length_drop, h7]; omega)
        (by simpa using hmax)
        (by simp only [List.length_drop]; omega)
      rw [hfeed]
      refine ⟨fsn, ?_⟩
      have hjoin : (h.rx_buffer ++ rest.take 7) ++ rest.drop 7 = h.rx_buffer ++ rest := by
        rw [List.append_assoc, List.take_append_drop]
      simp only at hjoin ⊢
      rw [hjoin]
      simp

/-- When appending the 7 payload bytes of a matching Consecutive Frame
would overflow the 4096-byte rx buffer, the `.unwrap()` on
`extend_from_slice` aborts. -/
lemma handle_cf_none (h : IsotpHandler) (chunk : List Nat) (sn : Nat)
    (hsn : sn ≤ 15) (hexp : h.expected_sequence_number = sn) (hc7 : chunk.length ≤ 7)
    (hcap : 4096 < h.rx_buffer.length + 7) :
    handle_received_can_frame h (pad_frame ((CONSECUTIVE_FRAME ||| (sn &&& 0x0F)) :: chunk)) =
      none := by
  have hpl : (chunk ++ List.replicate (7 - chunk.length) DEFAULT_TX_PAD_BYTE).length = 7 := by
    simp [List.length_replicate]
    omega
  rw [pad_cf_shape sn chunk hsn hc7]
  have hb : (32 + sn) >>> 4 = 2 := by
    rw [shr4]
    omega
  rw [dispatch_cf _ _ _ hb, handle_consecutive_frame]
  have hlen2 : ¬ ((32 + sn) ::
      (chunk ++ List.replicate (7 - chunk.length) DEFAULT_TX_PAD_BYTE)).length < 2 := by
    simp [hpl]
  rw [if_neg hlen2]
  have hsn15 : (32 + sn) &&& 15 = sn := by
    rw [land15]
    omega
  simp only [List.headI_cons, List.drop_succ_cons, List.drop_zero, hsn15, hexp]
  rw [if_neg (by simp)]
  have hext : vecExtend 4096 h.rx_buffer
      (chunk ++ List.replicate (7 - chunk.length) DEFAULT_TX_PAD_BYTE) = none := by
    rw [vecExtend, if_neg (by rw [hpl]; omega)]
  rw [hext]

/-- When the declared length exceeds what the capacity bound allows for
the final padded append, feeding the Consecutive Frame stream aborts on
the rx-buffer overflow instead of emitting a PDU. -/
lemma feed_cf_stream_overflow : ∀ (m : Nat) (rest : List Nat) (sn : Nat) (h : IsotpHandler),
    rest.length ≤ m → rest ≠ [] → sn ≤ 15 →
    h.expected_sequence_number = sn →
    h.expected_length = h.rx_buffer.length + rest.length →
    h.expected_length ≤ 4095 →
    4090 + (rest.length - 1) % 7 < h.expected_length →
    feedFrames h (cfFrames rest sn) = none := by
  intro m
  induction m with
  | zero =>
    intro rest sn h hm hne
    exact absurd (List.length_eq_zero.mp (by omega)) hne
  | succ m ih =>
    intro rest sn h hm hne hsn hexp hlen hmax hcapx
    have hrne : rest.isEmpty = false := List.isEmpty_eq_false.mpr hne
    have hr1 : 0 < rest.length := List.length_pos.mpr hne
    have htk7 : (rest.take 7).length = min 7 rest.length := List.length_take 7 rest
    rw [cfFrames]
    simp only [hrne, Bool.false_eq_true, if_false]
    rw [feedFrames]
    rcases Nat.lt_or_ge rest.length 8 with hshort | hlong
    · -- the overflowing final append
      rw [handle_cf_none h (rest.take 7) sn hsn hexp (by omega) (by omega)]
    · -- an intermediate frame succeeds without emission, then recurse
      rw [handle_cf_spec h (rest.take 7) sn hsn hexp (by omega) (by omega)]
      have hcond : ¬ h.rx_buffer.length + 7 ≥ h.expected_length := by omega
      rw [if_neg hcond]
      have h7 : (rest.take 7).length = 7 := by omega
      have hpad0 : (7 : Nat) - (rest.take 7).length = 0 := by omega
      rw [hpad0]
      simp only [List.replicate_zero, List.append_nil]
      have hdne : rest.drop 7 ≠ [] := by
        intro hc
        have := congrArg List.length hc
        simp at this
        omega
      have hsn2 : (if sn = 0x0F then 0 else sn + 1) ≤ 15 := by
        split
        next => omega
        next hs => omega
      have hrec := ih (rest.drop 7) (if sn = 0x0F then 0 else sn + 1)
        { h with
            rx_buffer := h.rx_buffer ++ rest.take 7,
            expected_sequence_number := if sn = 0x0F then 0 else sn + 1 }
        (by simp [List.length_drop]; omega) hdne hsn2 rfl
        (by simp [List.length_append, List.length_drop, h7]; omega)
        (by simpa using hmax)
        (by simp only [List.length_drop]; omega)
      rw [hrec]

/-- Round trip of a multi-frame transmission for PDU lengths 8 to 4094:
`send_message` succeeds, emits one First Frame plus the ceiling of
`(L-6)/7` Consecutive Frames, and feeding those frames into a fresh
handler of the same configuration answers one default Flow Control frame
and emits exactly the original PDU. -/
theorem multi_frame_round_trip (req rep : Nat) (pdu : List Nat)
    (h8 : 8 ≤ pdu.length) (h4094 : pdu.length ≤ 4094) :
    ∃ stF fsn,
      (IsotpHandler.new req rep).send_message pdu =
        some (stF, ffFrame pdu :: cfFrames (pdu.drop 6) 1, true) ∧
      (ffFrame pdu :: cfFrames (pdu.drop 6) 1).length = 1 + (pdu.length - 6 + 6) / 7 ∧
      feedFrames (IsotpHandler.new req rep) (ffFrame pdu :: cfFrames (pdu.drop 6) 1) =
        some ⟨{ (IsotpHandler.new req rep) with
                  rx_buffer := pdu,
                  expected_length := pdu.length,
                  expected_sequence_number := fsn }, [fcDefault], [pdu]⟩ := by
  obtain ⟨stF, hsend⟩ := send_multi_frame_spec (IsotpHandler.new req rep) pdu h8 (by omega)
  have hdisp : (IsotpHandler.new req rep).send_message pdu =
      send_multi_frame (IsotpHandler.new req rep) pdu := by
    rw [IsotpHandler.send_message, if_neg (by rw [show SF_DL_MAX = 7 from rfl]; omega)]
  have hdroplen : (pdu.drop 6).length = pdu.length - 6 := List.length_drop 6 pdu
  have hff := handle_ff_spec (IsotpHandler.new req rep) pdu h8 (by omega)
  have hstream := feed_cf_stream (pdu.drop 6).length (pdu.drop 6) 1
    { (IsotpHandler.new req rep) with
        rx_buffer := pdu.take 6,
        expected_length := pdu.length,
        expected_sequence_number := 1 }
    le_rfl
    (by
      intro hc
      have := congrArg List.length hc
      simp at this
      omega)
    (by omega) rfl
    (by dsimp only; simp [List.length_take]; omega)
    (by dsimp only; omega)
    (by dsimp only [List.length_drop]; omega)
  obtain ⟨fsn, hstream⟩ := hstream
  refine ⟨stF, fsn, by rw [hdisp]; exact hsend, ?_, ?_⟩
  · rw [List.length_cons, cfFrames_length (pdu.drop 6).length _ _ le_rfl, hdroplen]
    omega
  · rw [feedFrames, hff]
    dsimp only
    rw [hstream]
    dsimp only
    simp [List.take_append_drop]

/-- C1: for PDUs of length 8..=4095 with block_size = 0 the claim holds up
to length 4094 (see `multi_frame_round_trip`), but it fails at the
boundary length 4095: the transmitter emits the claimed
1 + ceil((4095-6)/7) = 586 frames, yet feeding them into an identically
configured fresh session aborts instead of emitting the PDU — the 585th
Consecutive Frame appends its 7 padded payload bytes to the 4094 bytes
already collected and overflows the rx buffer of capacity 4096, so the
`.unwrap()` on `extend_from_slice` in `handle_consecutive_frame` crashes
and no PDU is emitted. -/
theorem C1_round_trip_rx_overflow_at_4095 :
    ∃ stF,
      (IsotpHandler.new 0x7E0 0x7E8).send_message (List.replicate 4095 0xAB) =
        some (stF, ffFrame (List.replicate 4095 0xAB) ::
          cfFrames ((List.replicate 4095 0xAB).drop 6) 1, true) ∧
      (ffFrame (List.replicate 4095 0xAB) ::
        cfFrames ((List.replicate 4095 0xAB).drop 6) 1).length = 586 ∧
      feedFrames (IsotpHandler.new 0x7E0 0x7E8)
        (ffFrame (List.replicate 4095 0xAB) ::
          cfFrames ((List.replicate 4095 0xAB).drop 6) 1) = none := by
  have hplen : (List.replicate 4095 0xAB).length = 4095 := by
    simp only [List.length_replicate]
  obtain ⟨stF, hsend⟩ := send_multi_frame_spec (IsotpHandler.new 0x7E0 0x7E8)
    (List.replicate 4095 0xAB) (by omega) (by omega)
  have hdisp : (IsotpHandler.new 0x7E0 0x7E8).send_message (List.replicate 4095 0xAB) =
      send_multi_frame (IsotpHandler.new 0x7E0 0x7E8) (List.replicate 4095 0xAB) := by
    rw [IsotpHandler.send_message, if_neg (by rw [show SF_DL_MAX = 7 from rfl]; omega)]
  have hdroplen : ((List.replicate 4095 0xAB).drop 6).length = 4089 := by
    simp only [List.length_drop, List.length_replicate]
  have hff := handle_ff_spec (IsotpHandler.new 0x7E0 0x7E8) (List.replicate 4095 0xAB)
    (by omega) (by omega)
  have hover := feed_cf_stream_overflow 4089 ((List.replicate 4095 0xAB).drop 6) 1
    { (IsotpHandler.new 0x7E0 0x7E8) with
        rx_buffer := (List.replicate 4095 0xAB).take 6,
        expected_length := (List.replicate 4095 0xAB).length,
        expected_sequence_number := 1 }
    (by omega)
    (by
      intro hc
      have := congrArg List.length hc
      rw [hdroplen] at this
      simp only [List.length_nil] at this
      omega)
    (by omega) rfl
    (by dsimp only; simp only [List.length_take, List.length_replicate]; omega)
    (by dsimp only; omega)
    (by dsimp only; rw [hdroplen, hplen]; norm_num)
  refine ⟨stF, hdisp.trans hsend, ?_, ?_⟩
  · rw [List.length_cons, cfFrames_length ((List.replicate 4095 0xAB).drop 6).length _ _ le_rfl,
      hdroplen]
  · exact feedFrames_cons_none _ _ _ _ hff hover

/-- A Consecutive Frame whose sequence number differs from the expected
one is ignored: the handler state is unchanged, nothing is sent, nothing
is emitted. -/
lemma cf_mismatch_ignored (h : IsotpHandler) (data : List Nat)
    (hT : data.headI >>> 4 = 2)
    (hsn : data.headI &&& 0x0F ≠ h.expected_sequence_number) :
    handle_received_can_frame h data = some ⟨h, [], []⟩ := by
  cases data with
  | nil =>
    rw [show ([] : List Nat).headI = 0 from rfl] at hT
    exact absurd hT (by decide)
  | cons b0 rest =>
    rw [dispatch_cf _ _ _ (by simpa using hT), handle_consecutive_frame]
    by_cases hl : (b0 :: rest).length < 2
    · rw [if_pos hl]
    · rw [if_neg hl, if_pos (by simpa using hsn)]

/-- C2 (counterexample): the claim says a mismatched Consecutive Frame
aborts the reassembly, discards the partial rx state and suppresses any
later PDU.  On the code, after a First Frame (8-byte PDU declared) and a
Consecutive Frame with sequence number 2 instead of the expected 1, the
partial rx buffer still holds the six First Frame bytes (nothing was
discarded), and a subsequent Consecutive Frame with the expected sequence
number 1 completes the reassembly and emits a PDU. -/
theorem C2_counterexample_reassembly_not_aborted :
    Option.map handlerRx (feedFrames (IsotpHandler.new 1 2)
        [[0x10, 0x08, 0x11, 0x22, 0x33, 0x44, 0x55, 0x66],
         [0x22, 0x77, 0x88, 0x99, 0xAA, 0xBB, 0xCC, 0xDD]]) =
      some [0x11, 0x22, 0x33, 0x44, 0x55, 0x66] ∧
    Option.map HandlerStep.emitted (feedFrames (IsotpHandler.new 1 2)
        [[0x10, 0x08, 0x11, 0x22, 0x33, 0x44, 0x55, 0x66],
         [0x22, 0x77, 0x88, 0x99, 0xAA, 0xBB, 0xCC, 0xDD],
         [0x21, 0x77, 0x88, 0x99, 0xAA, 0xBB, 0xCC, 0xDD]]) =
      some [[0x11, 0x22, 0x33, 0x44, 0x55, 0x66, 0x77, 0x88]] := by
  constructor
  · decide
  · decide

/-- C2 (amended): delivering a Consecutive Frame whose sequence number
differs from the expected one of the session does not abort the reassembly —
the frame is merely dropped: the handler state is completely unchanged
(partial rx buffer included), nothing is sent and no PDU is emitted for
that frame.  A later in-sequence Consecutive Frame can still complete the
reassembly. -/
theorem C2_mismatched_cf_leaves_state_unchanged (h : IsotpHandler) (data : List Nat)
    (hT : data.headI >>> 4 = 2)
    (hsn : data.headI &&& 0x0F ≠ h.expected_sequence_number) :
    handle_received_can_frame h data = some ⟨h, [], []⟩ :=
  cf_mismatch_ignored h data hT hsn

theorem C2_mismatched_cf_leaves_state_unchanged_witness :
    (([0x25, 1, 2, 3, 4, 5, 6, 7] : List Nat).headI >>> 4 = 2 ∧
      ([0x25, 1, 2, 3, 4, 5, 6, 7] : List Nat).headI &&& 0x0F ≠
        (IsotpHandler.new 1 2).expected_sequence_number) ∧
    handle_received_can_frame (IsotpHandler.new 1 2) [0x25, 1, 2, 3, 4, 5, 6, 7] =
      some ⟨IsotpHandler.new 1 2, [], []⟩ :=
  ⟨⟨by decide, by decide⟩,
    C2_mismatched_cf_leaves_state_unchanged (IsotpHandler.new 1 2) _ (by decide) (by decide)⟩

/-- C6 (counterexample): the claim says any Consecutive Frame arriving
while no reassembly is in progress is dropped with the state unchanged
and no PDU emitted.  On the code, a fresh session has
`expected_sequence_number = 0`, so a Consecutive Frame with sequence
number 0 is treated as in-sequence: its payload is appended, and since
`expected_length` is still 0, an empty PDU is emitted immediately and the
expected sequence number changes to 1. -/
theorem C6_counterexample_empty_pdu_emitted :
    handle_received_can_frame (IsotpHandler.new 1 2) [0x20, 1, 2, 3, 4, 5, 6, 7] =
      some ⟨{ IsotpHandler.new 1 2 with expected_sequence_number := 1 }, [], [[]]⟩ ∧
    ({ IsotpHandler.new 1 2 with expected_sequence_number := 1 } : IsotpHandler) ≠
      IsotpHandler.new 1 2 := by
  constructor
  · decide
  · decide

/-- C6 (amended): a Consecutive Frame delivered to a freshly created
session (where no reassembly is in progress) is dropped with the state
unchanged and no PDU emitted exactly when its sequence number differs
from the expected sequence number of the session, which is 0 at creation; a
frame with sequence number 0 is instead consumed (see the
counterexample). -/
theorem C6_fresh_session_cf_dropped_for_nonzero_sn
    (request_arbitration_id reply_arbitration_id : Nat) (data : List Nat)
    (hT : data.headI >>> 4 = 2)
    (hsn : data.headI &&& 0x0F ≠ 0) :
    handle_received_can_frame (IsotpHandler.new request_arbitration_id reply_arbitration_id)
      data =
      some ⟨IsotpHandler.new request_arbitration_id reply_arbitration_id, [], []⟩ :=
  cf_mismatch_ignored _ data hT (by simpa [IsotpHandler.new] using hsn)

theorem C6_fresh_session_cf_dropped_for_nonzero_sn_witness :
    (([0x21, 9, 9, 9, 9, 9, 9, 9] : List Nat).headI >>> 4 = 2 ∧
      ([0x21, 9, 9, 9, 9, 9, 9, 9] : List Nat).headI &&& 0x0F ≠ 0) ∧
    handle_received_can_frame (IsotpHandler.new 0x7E0 0x7E8) [0x21, 9, 9, 9, 9, 9, 9, 9] =
      some ⟨IsotpHandler.new 0x7E0 0x7E8, [], []⟩ :=
  ⟨⟨by decide, by decide⟩,
    C6_fresh_session_cf_dropped_for_nonzero_sn 0x7E0 0x7E8 _ (by decide) (by decide)⟩

/-- C3 (counterexample): the claim says StartPeriodic and StopPeriodic
commands make the bridge return an unimplemented result and never crash.
On the code, both match arms of `handle_ble_message` are `todo!()`, which
aborts the firmware (modelled as `none`): no result of any kind is
returned — indeed `ManagerError` has no Unimplemented variant. -/
theorem C3_counterexample_periodic_commands_crash :
    handle_ble_message ⟨[], []⟩ canFilterInit ParsedBleMessage.startPeriodicIsotpMessage =
      none ∧
    handle_ble_message ⟨[], []⟩ canFilterInit ParsedBleMessage.stopPeriodicIsotpMessage =
      none :=
  ⟨rfl, rfl⟩

/-- C3 (amended): for every bridge state and every StartPeriodic (0x04)
or StopPeriodic (0x05) command, `handle_ble_message` reaches a `todo!()`
arm and crashes instead of returning a result. -/
theorem C3_periodic_commands_always_abort (b : IsotpBleBridge) (cs : CanFilterState) :
    handle_ble_message b cs ParsedBleMessage.startPeriodicIsotpMessage = none ∧
    handle_ble_message b cs ParsedBleMessage.stopPeriodicIsotpMessage = none :=
  ⟨rfl, rfl⟩

/-- C9: a PDU of length 1..=7 is sent as exactly one CAN frame of length
8: byte 0 is `0x00 | L`, the next L bytes are the PDU, and the remaining
`7 - L` bytes are the pad byte 0x55.  The handler state is unchanged. -/
theorem C9_single_frame_shape (st : IsotpHandler) (data : List Nat)
    (h1 : 1 ≤ data.length) (h7 : data.length ≤ 7) :
    st.send_message data =
      some (st, [(SINGLE_FRAME ||| data.length % 256) ::
        (data ++ List.replicate (7 - data.length) DEFAULT_TX_PAD_BYTE)], true) ∧
    ((SINGLE_FRAME ||| data.length % 256) ::
      (data ++ List.replicate (7 - data.length) DEFAULT_TX_PAD_BYTE)).length = 8 := by
  have hshape : pad_frame ([SINGLE_FRAME ||| data.length % 256] ++ data) =
      (SINGLE_FRAME ||| data.length % 256) ::
        (data ++ List.replicate (7 - data.length) DEFAULT_TX_PAD_BYTE) := by
    rw [pad_frame]
    have h2 : 8 - ([SINGLE_FRAME ||| data.length % 256] ++ data).length = 7 - data.length := by
      simp only [List.length_append, List.length_cons, List.length_nil]
      omega
    rw [h2]
    simp only [List.singleton_append, List.cons_append, List.nil_append]
  have hlen8 : ((SINGLE_FRAME ||| data.length % 256) ::
      (data ++ List.replicate (7 - data.length) DEFAULT_TX_PAD_BYTE)).length = 8 := by
    simp only [List.length_cons, List.length_append, List.length_replicate]
    omega
  refine ⟨?_, hlen8⟩
  rw [IsotpHandler.send_message, if_pos (by rw [show SF_DL_MAX = 7 from rfl]; omega)]
  rw [send_single_frame]
  have hext : vecExtend 8 [SINGLE_FRAME ||| data.length % 256] data =
      some ([SINGLE_FRAME ||| data.length % 256] ++ data) := by
    rw [vecExtend, if_pos (by simp only [List.length_cons, List.length_nil]; omega)]
  rw [hext]
  dsimp only
  rw [hshape, can_send_of_le _ (le_of_eq hlen8)]

theorem C9_single_frame_shape_witness :
    ((1 : Nat) ≤ ([0x22, 0xF1, 0x90] : List Nat).length ∧
      ([0x22, 0xF1, 0x90] : List Nat).length ≤ 7) ∧
    (IsotpHandler.new 0x7E0 0x7E8).send_message [0x22, 0xF1, 0x90] =
      some (IsotpHandler.new 0x7E0 0x7E8,
        [[0x03, 0x22, 0xF1, 0x90, 0x55, 0x55, 0x55, 0x55]], true) := by
  refine ⟨⟨by decide, by decide⟩, ?_⟩
  have h := (C9_single_frame_shape (IsotpHandler.new 0x7E0 0x7E8) [0x22, 0xF1, 0x90]
    (by decide) (by decide)).1
  exact h.trans (by decide)

/-- C10: `SendIsotpBuffer` reads the two arbitration ids by indexing
bytes 0..8 of the staging buffer; when the staging buffer holds fewer
than 8 bytes the indexing is out of bounds and the bridge crashes
(modelled as `none`) instead of returning a typed error. -/
theorem C10_send_buffer_requires_8_bytes (b : IsotpBleBridge) (cs : CanFilterState)
    (total_length : Nat) (h : b.isotp_tx_buffer.length < 8) :
    handle_ble_message b cs (ParsedBleMessage.sendIsotpBuffer total_length) = none := by
  rw [handle_ble_message]
  rw [if_neg (by omega)]

theorem C10_send_buffer_requires_8_bytes_witness :
    ((⟨[], []⟩ : IsotpBleBridge).isotp_tx_buffer.length < 8) ∧
    handle_ble_message ⟨[], []⟩ canFilterInit (ParsedBleMessage.sendIsotpBuffer 11) = none :=
  ⟨by decide, C10_send_buffer_requires_8_bytes ⟨[], []⟩ canFilterInit 11 (by decide)⟩

/-- C8: an `UploadIsotpChunk` whose offset plus chunk length exceeds 4096
as unbounded integers is rejected with `InvalidOffset` and leaves the
bridge — in particular the staging buffer — exactly unchanged.  Either
the wrapping `u16` bound check already trips, or (when the `u16` sum
wrapped around) the `resize` call fails on the 4096-byte capacity before
anything is written. -/
theorem C8_overflow_rejected_buffer_unchanged (b : IsotpBleBridge) (cs : CanFilterState)
    (offset chunk_length : Nat) (chunk : List Nat)
    (hgt : 4096 < offset + chunk_length) :
    handle_ble_message b cs (ParsedBleMessage.uploadIsotpChunk offset chunk_length chunk) =
      some (b, cs, some ManagerError.invalidOffset) := by
  rw [handle_ble_message]
  by_cases hw : (offset + chunk_length) % 65536 > MAX_TX_BUFFER_SIZE
  · rw [if_pos hw]
  · rw [if_neg hw]
    rw [show MAX_TX_BUFFER_SIZE = 4096 from rfl] at hw
    dsimp only
    have hres : vecResize MAX_TX_BUFFER_SIZE b.isotp_tx_buffer (offset + chunk_length) =
        none := by
      rw [vecResize, if_neg (by rw [show MAX_TX_BUFFER_SIZE = 4096 from rfl]; omega)]
    rw [hres]

theorem C8_overflow_rejected_buffer_unchanged_witness :
    ((4096 : Nat) < 4090 + 10) ∧
    handle_ble_message ⟨[], []⟩ canFilterInit
        (ParsedBleMessage.uploadIsotpChunk 4090 10 (List.replicate 10 1)) =
      some (⟨[], []⟩, canFilterInit, some ManagerError.invalidOffset) :=
  ⟨by decide,
    C8_overflow_rejected_buffer_unchanged ⟨[], []⟩ canFilterInit 4090 10
      (List.replicate 10 1) (by decide)⟩

/-- C5: the claim says that with `block_size = n > 0` the transmitter
emits at most n Consecutive Frames and then pauses until another
FC(ContinueToSend) arrives.  On the code there is no pause: after a Flow
Control frame sets `block_size = 2`, a single `send_message` call for a
30-byte PDU emits the First Frame and all 4 Consecutive Frames
back-to-back — the block-size branch of the loop only recomputes the
`remaining_block_size` counter (with a wrapping decrement of its zero
initial value) and contains no wait for a further Flow Control frame,
which `send_message`, being one straight-line call, could not receive
anyway. -/
theorem C5_all_cfs_sent_without_fc_pause :
    handle_received_can_frame (IsotpHandler.new 1 2)
        [0x30, 0x02, 0x00, 0x55, 0x55, 0x55, 0x55, 0x55] =
      some ⟨{ IsotpHandler.new 1 2 with block_size := 2, st_min := 0 }, [], []⟩ ∧
    ({ IsotpHandler.new 1 2 with block_size := 2, st_min := 0 } : IsotpHandler).send_message
        [1, 2, 3, 4, 5, 6, 7, 8, 9, 10, 11, 12, 13, 14, 15,
         16, 17, 18, 19, 20, 21, 22, 23, 24, 25, 26, 27, 28, 29, 30] =
      some ({ IsotpHandler.new 1 2 with
                block_size := 2, st_min := 0,
                tx_buffer := [7, 8, 9, 10, 11, 12, 13, 14, 15, 16, 17, 18, 19, 20,
                  21, 22, 23, 24, 25, 26, 27, 28, 29, 30],
                tx_index := 1 },
        [[0x10, 30, 1, 2, 3, 4, 5, 6],
         [0x21, 7, 8, 9, 10, 11, 12, 13],
         [0x22, 14, 15, 16, 17, 18, 19, 20],
         [0x23, 21, 22, 23, 24, 25, 26, 27],
         [0x24, 28, 29, 30, 0x55, 0x55, 0x55, 0x55]], true) ∧
    cfCount
        [[0x10, 30, 1, 2, 3, 4, 5, 6],
         [0x21, 7, 8, 9, 10, 11, 12, 13],
         [0x22, 14, 15, 16, 17, 18, 19, 20],
         [0x23, 21, 22, 23, 24, 25, 26, 27],
         [0x24, 28, 29, 30, 0x55, 0x55, 0x55, 0x55]] = 4 := by
  refine ⟨by decide, ?_, by decide⟩
  simp [IsotpHandler.send_message, send_multi_frame, send_cf_loop, send_single_frame,
    vecExtend, can_send, pad_frame, IsotpHandler.new, SF_DL_MAX, CF_DL_MAX,
    FIRST_FRAME, CONSECUTIVE_FRAME, DEFAULT_TX_PAD_BYTE, DEFAULT_ST_MIN,
    DEFAULT_BLOCK_SIZE]
  decide

/-- C7: the claim says `register_isotp_filter` accepts the first 8
registrations and returns false exactly when the 8-entry table is full.
On the code the guard is `FILTER_COUNT >= MAX_FILTERS - 1`, an
off-by-one: starting from the empty table, the first 7 registrations
succeed and the 8th is rejected even though only 7 of the
`MAX_FILTERS = 8` slots are occupied (the last slot can never be
used). -/
theorem C7_eighth_registration_rejected_with_free_slot :
    registerMany canFilterInit [1, 2, 3, 4, 5, 6, 7, 8] =
      (⟨[1, 2, 3, 4, 5, 6, 7, 0], 7⟩,
        [true, true, true, true, true, true, true, false]) ∧
    (7 : Nat) < MAX_FILTERS := by
  constructor
  · decide
  · decide

lemma listCopyAt_length (buf chunk : List Nat) (start : Nat)
    (h : start + chunk.length ≤ buf.length) :
    (listCopyAt buf start chunk).length = buf.length := by
  simp only [listCopyAt, List.length_append, List.length_take, List.length_drop]
  omega

lemma listCopyAt_getD_lt (buf chunk : List Nat) (start i : Nat)
    (hi : i < start) (hs : start ≤ buf.length) :
    (listCopyAt buf start chunk).getD i 0 = buf.getD i 0 := by
  have htl : (buf.take start).length = start := by
    rw [List.length_take]
    omega
  rw [List.getD_eq_getElem?_getD, List.getD_eq_getElem?_getD, listCopyAt,
    List.getElem?_append, if_pos (by rw [List.length_append, htl]; omega),
    List.getElem?_append, if_pos (by rw [htl]; omega), List.getElem?_take,
    if_pos hi]

lemma listCopyAt_getD_chunk (buf chunk : List Nat) (start j : Nat)
    (hj : j < chunk.length) (hs : start ≤ buf.length) :
    (listCopyAt buf start chunk).getD (start + j) 0 = chunk.getD j 0 := by
  have htl : (buf.take start).length = start := by
    rw [List.length_take]
    omega
  rw [List.getD_eq_getElem?_getD, List.getD_eq_getElem?_getD, listCopyAt,
    List.getElem?_append, if_pos (by rw [List.length_append, htl]; omega),
    List.getElem?_append, if_neg (by rw [htl]; omega), htl,
    show start + j - start = j from by omega]

/-- C4 (counterexample): the claim says the staging buffer is resized to
`max(current_len, offset + chunk_length)`, so bytes of an earlier upload
outside the range of a later chunk survive.  On the code, `resize` shrinks the
buffer to exactly `offset + chunk_length`: after uploading 16 bytes 0xAA
at offset 0 and then 8 bytes 0xBB at offset 0, the buffer is 8 bytes long
— bytes 8..16 of the first upload are gone, and the length differs from
the claimed `max(16, 8) = 16`. -/
theorem C4_counterexample_shorter_upload_truncates :
    handle_ble_message ⟨[], []⟩ canFilterInit
        (ParsedBleMessage.uploadIsotpChunk 0 16 (List.replicate 16 0xAA)) =
      some (⟨[], List.replicate 16 0xAA⟩, canFilterInit, none) ∧
    handle_ble_message ⟨[], List.replicate 16 0xAA⟩ canFilterInit
        (ParsedBleMessage.uploadIsotpChunk 0 8 (List.replicate 8 0xBB)) =
      some (⟨[], List.replicate 8 0xBB⟩, canFilterInit, none) ∧
    (List.replicate 8 0xBB).length ≠
      max (List.replicate 16 0xAA).length (0 + 8) := by
  refine ⟨by decide, by decide, by decide⟩

/-- C4 (amended): an in-range `UploadIsotpChunk` resizes the staging
buffer to exactly `offset + chunk_length` — truncating any earlier bytes
beyond that length, zero-filling growth — and copies the chunk at
`offset`.  Earlier bytes below `offset` are preserved; accumulation
across uploads holds only for them. -/
theorem C4_upload_resizes_to_exact_length (b : IsotpBleBridge) (cs : CanFilterState)
    (offset chunk_length : Nat) (chunk : List Nat)
    (hle : offset + chunk_length ≤ 4096) (hck : chunk.length = chunk_length) :
    ∃ buf,
      handle_ble_message b cs (ParsedBleMessage.uploadIsotpChunk offset chunk_length chunk) =
        some ({ b with isotp_tx_buffer := buf }, cs, none) ∧
      buf.length = offset + chunk_length ∧
      (∀ i, i < offset → buf.getD i 0 =
        if i < b.isotp_tx_buffer.length then b.isotp_tx_buffer.getD i 0 else 0) ∧
      (∀ j, j < chunk_length → buf.getD (offset + j) 0 = chunk.getD j 0) := by
  have hwrap : ¬ (offset + chunk_length) % 65536 > MAX_TX_BUFFER_SIZE := by
    rw [show MAX_TX_BUFFER_SIZE = 4096 from rfl, Nat.mod_eq_of_lt (by omega)]
    omega
  have hres : ∃ buf0, vecResize MAX_TX_BUFFER_SIZE b.isotp_tx_buffer
      (offset + chunk_length) = some buf0 ∧
      buf0.length = offset + chunk_length ∧
      (∀ i, i < offset → buf0.getD i 0 =
        if i < b.isotp_tx_buffer.length then b.isotp_tx_buffer.getD i 0 else 0) := by
    rcases le_or_lt (offset + chunk_length) b.isotp_tx_buffer.length with hsh | hgr
    · refine ⟨b.isotp_tx_buffer.take (offset + chunk_length), ?_, ?_, ?_⟩
      · rw [vecResize, if_pos (by rw [show MAX_TX_BUFFER_SIZE = 4096 from rfl]; omega),
          if_pos hsh]
      · rw [List.length_take]
        omega
      · intro i hi
        rw [if_pos (by omega), List.getD_eq_getElem?_getD, List.getD_eq_getElem?_getD,
          List.getElem?_take, if_pos (by omega)]
    · refine ⟨b.isotp_tx_buffer ++
        List.replicate (offset + chunk_length - b.isotp_tx_buffer.length) 0, ?_, ?_, ?_⟩
      · rw [vecResize, if_pos (by rw [show MAX_TX_BUFFER_SIZE = 4096 from rfl]; omega),
          if_neg (by omega)]
      · rw [List.length_append, List.length_replicate]
        omega
      · intro i hi
        rcases Nat.lt_or_ge i b.isotp_tx_buffer.length with hlo | hhi
        · rw [if_pos hlo]
          exact List.getD_append _ _ 0 i hlo
        · rw [if_neg (by omega),
            List.getD_append_right _ _ 0 i hhi, List.getD_eq_getElem?_getD,
            List.getElem?_replicate, if_pos (by omega)]
          rfl
  obtain ⟨buf0, h1, h2, h3⟩ := hres
  refine ⟨listCopyAt buf0 offset chunk, ?_, ?_, ?_, ?_⟩
  · rw [handle_ble_message, if_neg hwrap]
    dsimp only
    rw [h1]
    dsimp only
    rw [if_pos hck]
  · rw [listCopyAt_length buf0 chunk offset (by omega), h2]
  · intro i hi
    rw [listCopyAt_getD_lt buf0 chunk offset i hi (by omega)]
    exact h3 i hi
  · intro j hj
    rw [listCopyAt_getD_chunk buf0 chunk offset j (by omega) (by omega)]

theorem C4_upload_resizes_to_exact_length_witness :
    ((1 : Nat) + 2 ≤ 4096 ∧ ([9, 9] : List Nat).length = 2) ∧
    (∃ buf,
      handle_ble_message ⟨[], [1, 2, 3]⟩ canFilterInit
          (ParsedBleMessage.uploadIsotpChunk 1 2 [9, 9]) =
        some ({ (⟨[], [1, 2, 3]⟩ : IsotpBleBridge) with isotp_tx_buffer := buf },
          canFilterInit, none) ∧
      buf.length = 1 + 2 ∧
      (∀ i, i < 1 → buf.getD i 0 =
        if i < (⟨[], [1, 2, 3]⟩ : IsotpBleBridge).isotp_tx_buffer.length then
          (⟨[], [1, 2, 3]⟩ : IsotpBleBridge).isotp_tx_buffer.getD i 0 else 0) ∧
      (∀ j, j < 2 → buf.getD (1 + j) 0 = ([9, 9] : List Nat).getD j 0)) :=
  ⟨⟨by decide, by decide⟩,
    C4_upload_resizes_to_exact_length ⟨[], [1, 2, 3]⟩ canFilterInit 1 2 [9, 9]
      (by decide) (by decide)⟩
